import Mathlib

/-!
Verification of the GSC (Google Search Console) analytics dashboard core:
a shallow embedding of the aggregation / segmentation / trend logic of
`src/modules/gsc_data.py`, `src/modules/ai_analyzer.py` and `src/app.py`,
together with theorems settling the frozen claims C1..C10 about it.

Modelling conventions:
* pandas DataFrames of search-analytics rows become `List Record`;
  a missing (NaN) cell of an optional column becomes `Option.none`.
* floats become `ℚ` (exact arithmetic; every float computation in the
  source is a finite combination of sums, means and divisions).
* the two network calls (Metrics Source fetch, OpenAI ChatCompletion) are
  inputs of the embedded functions: the outcome of the ChatCompletion call
  is an `Except String String` parameter (`Except.ok text`, or
  `Except.error e` carrying the string of the raised exception).
-/

namespace GSC

/-- Record: one normalized search-analytics observation, the row type of the
DataFrames built by `get_search_analytics` (gsc_data.py 69-86).  Dimension
columns (`date`, `query`, `page`) are optional; metric columns are the four
fixed fields.  The `date` value is kept as its wire string. -/
structure Record where
  date : Option String := none
  query : Option String := none
  page : Option String := none
  clicks : Nat := 0
  impressions : Nat := 0
  ctr : ℚ := 0
  position : ℚ := 0
deriving DecidableEq, Repr

/-- Check that `needle` occurs at the start of `hay` (as character lists). -/
def headMatch : List Char → List Char → Bool
  | [], _ => true
  | _ :: _, [] => false
  | a :: as, b :: bs => a == b && headMatch as bs

/-- Check that `needle` occurs as a contiguous substring of `hay`; the empty
needle matches everywhere. -/
def substrMatch (needle : List Char) : List Char → Bool
  | [] => headMatch needle []
  | b :: bs => headMatch needle (b :: bs) || substrMatch needle bs

/-- String-level substring test: `strContains hay needle` is true when
`needle` occurs contiguously inside `hay`. -/
def strContains (hay needle : String) : Bool :=
  substrMatch needle.data hay.data

/-- Character list of a string lowered character by character, the effect
of `str.lower()` on the ASCII keywords and queries involved here. -/
def lowerChars (s : String) : List Char :=
  s.data.map Char.toLower

/-- Embeds the branded-query classifier shared by
`get_branded_vs_nonbranded` (gsc_data.py 251-252) and
`analyze_branded_traffic` (ai_analyzer.py 218-219): the keyword list is
joined into one regex alternation and matched case-insensitively against the
query (`str.contains(pattern, case=False, na=False)`).  Joining the empty
keyword list yields the empty pattern, and the empty regex matches every
string, so an empty keyword list classifies every non-null query as branded.
A missing query is classified `false` (`na=False`).  Keywords are modelled
as literal substrings (the regex alternation of literals); none of the
claims uses regex metacharacters. -/
def is_branded (brand_keywords : List String) (q : Option String) : Bool :=
  match q with
  | none => false
  | some s =>
      brand_keywords.isEmpty ||
        brand_keywords.any fun kw => substrMatch (lowerChars kw) (lowerChars s)

/-- Total clicks of a dataset (`df['clicks'].sum()`). -/
def sumClicks (D : List Record) : Nat :=
  (D.map Record.clicks).sum

/-- Clicks of the rows classified branded (gsc_data.py 254). -/
def brandedClicks (brand_keywords : List String) (D : List Record) : Nat :=
  sumClicks (D.filter fun r => is_branded brand_keywords r.query)

/-- Clicks of the rows classified non-branded (gsc_data.py 255). -/
def nonBrandedClicks (brand_keywords : List String) (D : List Record) : Nat :=
  sumClicks (D.filter fun r => !(is_branded brand_keywords r.query))

/-- Embeds `get_branded_vs_nonbranded` (gsc_data.py 233-259): an empty
dataset short-circuits to `(0, 0)`; otherwise the result is the pair
`(branded clicks, non-branded clicks)` of the classifier split. -/
def get_branded_vs_nonbranded (brand_keywords : List String)
    (D : List Record) : Nat × Nat :=
  if D.isEmpty then (0, 0)
  else (brandedClicks brand_keywords D, nonBrandedClicks brand_keywords D)

@[simp]
theorem sumClicks_nil : sumClicks [] = 0 := rfl

@[simp]
theorem sumClicks_cons (r : Record) (l : List Record) :
    sumClicks (r :: l) = r.clicks + sumClicks l := by
  simp [sumClicks]

/-- Dataset for the C1 counterexample: one purely generic query. -/
def c1Dataset : List Record :=
  [{ query := some "running shoes", clicks := 3 }]

/-- C1 counterexample: with an empty brand-keyword list the claim predicts
`(branded, non_branded) = (0, 3)` on `c1Dataset`, but the empty joined
pattern matches every query, so the code yields `(3, 0)`: the whole dataset
lands in the branded segment and the non-branded segment is empty. -/
theorem c1_empty_keywords_counterexample :
    get_branded_vs_nonbranded [] c1Dataset = (sumClicks c1Dataset, 0) ∧
      get_branded_vs_nonbranded [] c1Dataset ≠ (0, sumClicks c1Dataset) := by
  decide

/-- C1 (amended): classifying branded traffic with an empty brand-keyword
list puts every record that has a query value in the branded segment and
leaves the non-branded segment empty (branded clicks equal the total clicks,
non-branded clicks equal 0). -/
theorem c1_empty_keywords_all_branded (D : List Record)
    (h : ∀ r ∈ D, r.query ≠ none) :
    brandedClicks [] D = sumClicks D ∧ nonBrandedClicks [] D = 0 := by
  have hb : ∀ r ∈ D, is_branded [] r.query = true := by
    intro r hr
    cases hq : r.query with
    | none => exact absurd hq (h r hr)
    | some s => simp [is_branded]
  constructor
  · unfold brandedClicks
    rw [List.filter_eq_self.mpr hb]
  · unfold nonBrandedClicks
    have hnil : (D.filter fun r => !(is_branded [] r.query)) = [] := by
      rw [List.filter_eq_nil_iff]
      intro r hr
      simp [hb r hr]
    rw [hnil, sumClicks_nil]

/-- C1 witness: the amended statement evaluated on `c1Dataset`. -/
theorem c1_empty_keywords_all_branded_witness :
    brandedClicks [] c1Dataset = sumClicks c1Dataset ∧
      nonBrandedClicks [] c1Dataset = 0 :=
  c1_empty_keywords_all_branded c1Dataset (by decide)

/-- RawRow: one raw API row as consumed by `get_search_analytics`
(gsc_data.py 70-77): the ordered dimension key list plus the four metrics. -/
structure RawRow where
  keys : List String
  clicks : Nat := 0
  impressions : Nat := 0
  ctr : ℚ := 0
  position : ℚ := 0
deriving DecidableEq, Repr

/-- Embeds the row-normalization loop body of `get_search_analytics`
(gsc_data.py 69-78): `row_data = dict(zip(dimensions, row['keys']))`
followed by the metrics update.  Python `zip` silently truncates to the
shorter of the two lists, exactly as `List.zip` does, and the dimension
names requested by this program are distinct, so the first association
found by `lookup` is the value `dict` would store.  The result type is
`Except` so that the spec claim about a `MalformedRowError` failure is
statable; the code path never produces the error case. -/
def normalize_row (dimensions : List String) (row : RawRow) :
    Except String Record :=
  let assoc := dimensions.zip row.keys
  Except.ok
    { date := assoc.lookup "date"
      query := assoc.lookup "query"
      page := assoc.lookup "page"
      clicks := row.clicks
      impressions := row.impressions
      ctr := row.ctr
      position := row.position }

/-- Raw row for the C2 counterexample: two keys against one requested
dimension. -/
def c2Row : RawRow :=
  { keys := ["2024-01-01", "extra-key"], clicks := 1, impressions := 2 }

/-- C2 counterexample: the claim predicts a `MalformedRowError` for a row
whose key count (2) differs from the requested dimension count (1), but the
code zips and truncates, producing a Record with no error. -/
theorem c2_mismatched_row_counterexample :
    c2Row.keys.length ≠ (["date"] : List String).length ∧
      normalize_row ["date"] c2Row =
        Except.ok { date := some "2024-01-01", clicks := 1, impressions := 2 } := by
  refine ⟨by decide, rfl⟩

/-- C2 (amended): the row normalizer never fails; it pairs dimension names
with key values positionally, truncating to the shorter of the two lists,
and produces a Record for every raw row, mismatched or not. -/
theorem c2_normalizer_never_fails (dimensions : List String) (row : RawRow) :
    (normalize_row dimensions row).isOk = true := rfl

/-- Embeds `_get_ai_response` (ai_analyzer.py 288-307), shared by all six
analysis methods.  The outcome of the ChatCompletion network call is the
`call` parameter: on success the response text is returned verbatim; on any
exception the function returns only the fixed error marker followed by the
string of the exception.  Nothing else is appended after the marker. -/
def get_ai_response (call : Except String String) : String :=
  match call with
  | Except.ok text => text
  | Except.error e => "Errore nell\x27analisi AI: " ++ e

/-- Embeds `analyze_traffic_trends` (ai_analyzer.py 31-76).  The guard on
line 33 returns the fixed unavailable-message when the dataset is empty or
the OpenAI client was never configured (`self.client` is `None`, the
FALLBACK state of `setup_openai`, lines 19-29).  Otherwise the method
builds a statistics prompt (lines 36-74) and returns `_get_ai_response` on
it; the prompt only feeds the generator, whose outcome is the `call`
parameter. -/
def analyze_traffic_trends (clientConfigured : Bool) (data : List Record)
    (call : Except String String) : String :=
  if data.isEmpty || !clientConfigured then
    "Dati non disponibili per l\x27analisi"
  else
    get_ai_response call

/-- Dataset for the C3 counterexample: a single well-formed record, so the
guard of `analyze_traffic_trends` does not fire. -/
def c3Dataset : List Record :=
  [{ date := some "2024-01-01", query := some "a", clicks := 1,
     impressions := 1, ctr := 1, position := 1 }]

/-- C3 counterexample: with a configured client and a failing generator
call, the orchestrator returns exactly the error marker plus the exception
text and nothing more — in particular the deterministic fallback digest of
`_prepare_data_summary` (whose output always carries the header
`RIEPILOGO`, ai_analyzer.py 331-341) does not occur in the returned text,
contradicting the claim that the fallback summary is always appended. -/
theorem c3_error_path_counterexample :
    analyze_traffic_trends true c3Dataset (Except.error "boom") =
        "Errore nell\x27analisi AI: boom" ∧
      strContains
        (analyze_traffic_trends true c3Dataset (Except.error "boom"))
        "RIEPILOGO" = false := by
  decide

/-- C3 (amended): when the generator call fails in the AI_AVAILABLE state on
a non-empty dataset, the orchestrator returns only the error marker
concatenated with the exception text; no fallback digest follows. -/
theorem c3_error_path_returns_marker_only (data : List Record) (e : String)
    (h : data ≠ []) :
    analyze_traffic_trends true data (Except.error e) =
      "Errore nell\x27analisi AI: " ++ e := by
  cases data with
  | nil => exact absurd rfl h
  | cons a t => rfl

/-- C3 witness: the amended statement evaluated on `c3Dataset`. -/
theorem c3_error_path_returns_marker_only_witness :
    analyze_traffic_trends true c3Dataset (Except.error "boom") =
      "Errore nell\x27analisi AI: " ++ "boom" :=
  c3_error_path_returns_marker_only c3Dataset "boom" (by decide)

/-- Dataset for the C4 counterexample: non-empty, so a digest of its
contents would carry non-trivial totals. -/
def c4Dataset : List Record :=
  [{ query := some "buy nike shoes", clicks := 5, impressions := 50,
     ctr := 1/10, position := 2 }]

/-- C4 counterexample: with the client unconfigured (FALLBACK state) and a
non-empty dataset, the analysis call returns the fixed unavailable-message;
it contains neither the deterministic digest of the Summary Formatter
(header `RIEPILOGO`, ai_analyzer.py 331-341) nor any suggestion text, so
the claim that the digest plus a suggestion line is returned is false. -/
theorem c4_fallback_counterexample :
    analyze_traffic_trends false c4Dataset (Except.ok "ai text") =
        "Dati non disponibili per l\x27analisi" ∧
      strContains
        (analyze_traffic_trends false c4Dataset (Except.ok "ai text"))
        "RIEPILOGO" = false := by
  decide

/-- C4 (amended): in the FALLBACK state every `analyze_traffic_trends` call
returns the same fixed non-empty unavailable-message, whatever the dataset
and whatever the generator would have answered; the call never fails, but
the message contains no digest and no suggestion. -/
theorem c4_fallback_fixed_message (data : List Record)
    (call : Except String String) :
    analyze_traffic_trends false data call =
        "Dati non disponibili per l\x27analisi" ∧
      "Dati non disponibili per l\x27analisi" ≠ "" := by
  refine ⟨?_, by decide⟩
  cases data with
  | nil => rfl
  | cons a t => rfl

/-- Frame: the caller-visible state of a DataFrame passed into an analysis
method: its records plus the optional `is_branded` column that
`analyze_branded_traffic` assigns (`none` before any assignment).  Needed
to state the in-place mutation of the input. -/
structure Frame where
  records : List Record
  is_branded_col : Option (List Bool) := none
deriving DecidableEq, Repr

/-- Embeds `analyze_branded_traffic` (ai_analyzer.py 212-265) as a function
of the caller DataFrame state: line 219
`data['is_branded'] = data['query'].str.lower().str.contains(...)`
assigns a new boolean column on the input frame itself (pandas column
assignment mutates the object in place, no copy is taken), so the embedding
returns the updated frame together with the produced text.  The guard on
line 214 returns before the assignment, leaving the frame untouched. -/
def analyze_branded_traffic (clientConfigured : Bool)
    (brand_keywords : List String) (f : Frame)
    (call : Except String String) : Frame × String :=
  if f.records.isEmpty || !clientConfigured then
    (f, "Dati non disponibili per l\x27analisi")
  else
    ({ f with
        is_branded_col :=
          some (f.records.map fun r => is_branded brand_keywords r.query) },
      get_ai_response call)

/-- Frame for the C9 counterexample. -/
def c9Frame : Frame :=
  { records := [{ query := some "acme shoes", clicks := 2 }] }

/-- C9 counterexample: on a non-empty dataset with a configured client,
`analyze_branded_traffic` hands back a frame different from its input: the
`is_branded` column has been written onto the caller state, so the
operation does not leave the input Dataset unchanged. -/
theorem c9_mutation_counterexample :
    (analyze_branded_traffic true ["acme"] c9Frame (Except.ok "t")).1 ≠
      c9Frame := by
  decide

/-- C9 (amended): `analyze_branded_traffic` mutates its input frame only by
assigning the derived `is_branded` column; the records themselves — every
row and every metric field — are unchanged by every analysis call, in both
states and on every dataset. -/
theorem c9_records_preserved (clientConfigured : Bool)
    (brand_keywords : List String) (f : Frame)
    (call : Except String String) :
    ((analyze_branded_traffic clientConfigured brand_keywords f call).1).records
      = f.records := by
  unfold analyze_branded_traffic
  by_cases h : (f.records.isEmpty || !clientConfigured) = true
  · rw [if_pos h]
  · rw [if_neg h]

/-- AggregateRow: one output row of a `groupby(...).agg(...)` reduction
(sum for clicks and impressions, arithmetic mean for ctr and position). -/
structure AggregateRow where
  group_key : String
  clicks : Nat
  impressions : Nat
  ctr : ℚ
  position : ℚ
deriving DecidableEq, Repr

/-- Reduction of one group of records, the `agg` dictionary of
ai_analyzer.py 84-89 and app.py 245-250. -/
def aggregateGroup (k : String) (members : List Record) : AggregateRow :=
  { group_key := k
    clicks := sumClicks members
    impressions := (members.map Record.impressions).sum
    ctr := (members.map Record.ctr).sum / members.length
    position := (members.map Record.position).sum / members.length }

/-- Embeds `data.groupby(field).agg({...})` (ai_analyzer.py 84-89, app.py
245-250) for an optional dimension column selected by `key`: pandas
`groupby` with its default `dropna=True` partitions the rows by their
non-null key values and drops every row whose key is missing — no
`"(none)"` group is formed.  The groups are the distinct key values (pandas
orders them sorted; the order is immaterial to every claim, which only sums
over all groups) and each group aggregates the rows carrying its key. -/
def group_and_reduce (key : Record → Option String) (D : List Record) :
    List AggregateRow :=
  (D.filterMap key).dedup.map fun k =>
    aggregateGroup k (D.filter fun r => key r == some k)

/-- Additivity of `sumClicks` over a split of a filter by two mutually
exclusive boolean predicates. -/
theorem sumClicks_filter_or (D : List Record) (p q : Record → Bool)
    (hpq : ∀ r, ¬(p r = true ∧ q r = true)) :
    sumClicks (D.filter fun r => p r || q r) =
      sumClicks (D.filter p) + sumClicks (D.filter q) := by
  induction D with
  | nil => rfl
  | cons a t ih =>
    by_cases hp : p a = true
    · have hq : q a = false := by
        cases hqa : q a
        · rfl
        · exact absurd ⟨hp, hqa⟩ (hpq a)
      simp only [List.filter_cons, hp, hq, Bool.true_or, if_true,
        Bool.false_eq_true, if_false, sumClicks_cons, ih]
      omega
    · have hp' : p a = false := by
        cases hpa : p a
        · rfl
        · exact absurd hpa hp
      by_cases hq : q a = true
      · simp only [List.filter_cons, hp', hq, Bool.false_or, if_true,
          Bool.false_eq_true, if_false, sumClicks_cons, ih]
        omega
      · have hq' : q a = false := by
          cases hqa : q a
          · rfl
          · exact absurd hqa hq
        simp only [List.filter_cons, hp', hq', Bool.false_or,
          Bool.false_eq_true, if_false]
        exact ih

/-- Summing the per-key filtered clicks over a duplicate-free key list
equals the clicks of the rows whose key belongs to the list. -/
theorem sumClicks_over_keys (key : Record → Option String) (D : List Record)
    (ks : List String) (hnd : ks.Nodup) :
    ((ks.map fun k => sumClicks (D.filter fun r => key r == some k)).sum)
      = sumClicks (D.filter fun r => ks.any fun k => key r == some k) := by
  induction ks with
  | nil =>
    simp only [List.map_nil, List.sum_nil, List.any_nil]
    rw [List.filter_false]
    rfl
  | cons k ks ih =>
    have hk : k ∉ ks := (List.nodup_cons.mp hnd).1
    have hnd' : ks.Nodup := (List.nodup_cons.mp hnd).2
    simp only [List.map_cons, List.sum_cons, List.any_cons]
    rw [ih hnd']
    rw [sumClicks_filter_or D (fun r => key r == some k)
        (fun r => ks.any fun k => key r == some k) ?_]
    intro r ⟨h1, h2⟩
    obtain ⟨k2, hk2, hkey2⟩ := List.any_eq_true.mp h2
    have e1 : key r = some k := by
      simpa using h1
    have e2 : key r = some k2 := by
      simpa using hkey2
    rw [e1] at e2
    cases Option.some.inj e2
    exact hk hk2

/-- C5 counterexample: grouping a dataset whose single record has a missing
key value yields no groups at all (pandas drops null keys rather than
forming a `"(none)"` group), so the clicks total over the groups is 0 while
the dataset total is 5 — aggregation does not preserve totals in the
presence of missing key values. -/
theorem c5_missing_key_counterexample :
    (((group_and_reduce Record.query
          [{ query := none, clicks := 5 : Record }]).map
        AggregateRow.clicks).sum = 0) ∧
      sumClicks [{ query := none, clicks := 5 : Record }] = 5 := by
  constructor
  · rfl
  · rfl

/-- C5 (amended): for every dataset all of whose records carry a value for
the grouping key, the sum of clicks over the groups produced by
`group_and_reduce` equals the sum of clicks over the records of the
dataset; records with a missing key value are dropped by the grouping, so
their clicks are excluded from the group totals. -/
theorem c5_group_and_reduce_preserves_clicks (key : Record → Option String)
    (D : List Record) (h : ∀ r ∈ D, key r ≠ none) :
    ((group_and_reduce key D).map AggregateRow.clicks).sum = sumClicks D := by
  unfold group_and_reduce
  rw [List.map_map]
  have hcomp :
      (AggregateRow.clicks ∘ fun k =>
          aggregateGroup k (D.filter fun r => key r == some k))
        = fun k => sumClicks (D.filter fun r => key r == some k) := by
    funext k
    rfl
  rw [hcomp]
  rw [sumClicks_over_keys key D _ (List.nodup_dedup _)]
  have hall : ∀ r ∈ D,
      ((D.filterMap key).dedup.any fun k => key r == some k) = true := by
    intro r hr
    cases hkey : key r with
    | none => exact absurd hkey (h r hr)
    | some k =>
      refine List.any_eq_true.mpr ⟨k, ?_, by simp [hkey]⟩
      exact List.mem_dedup.mpr (List.mem_filterMap.mpr ⟨r, hr, hkey⟩)
  rw [List.filter_eq_self.mpr hall]

/-- Dataset for the C5 witness: three records over two distinct query keys. -/
def c5Dataset : List Record :=
  [{ query := some "a", clicks := 2 }, { query := some "b", clicks := 3 },
   { query := some "a", clicks := 4 }]

/-- C5 witness: the amended statement evaluated on `c5Dataset`. -/
theorem c5_group_and_reduce_preserves_clicks_witness :
    ((group_and_reduce Record.query c5Dataset).map AggregateRow.clicks).sum
      = sumClicks c5Dataset :=
  c5_group_and_reduce_preserves_clicks Record.query c5Dataset (by decide)

/-- Index sequence `x = range(len(series))` of `_calculate_trend`
(ai_analyzer.py 351), as rationals. -/
def trendXs (ys : List ℚ) : List ℚ :=
  (List.range ys.length).map (Nat.cast : ℕ → ℚ)

/-- Mean of the index sequence. -/
def trendXbar (ys : List ℚ) : ℚ :=
  (trendXs ys).sum / (ys.length : ℚ)

/-- Mean of the value sequence. -/
def trendYbar (ys : List ℚ) : ℚ :=
  ys.sum / (ys.length : ℚ)

/-- Centered cross-product sum of the Pearson correlation numerator. -/
def trendSxy (ys : List ℚ) : ℚ :=
  (((trendXs ys).zip ys).map fun p =>
    (p.1 - trendXbar ys) * (p.2 - trendYbar ys)).sum

/-- Centered square sum of the index sequence. -/
def trendSxx (ys : List ℚ) : ℚ :=
  ((trendXs ys).map fun x => (x - trendXbar ys) ^ 2).sum

/-- Centered square sum of the value sequence. -/
def trendSyy (ys : List ℚ) : ℚ :=
  (ys.map fun y => (y - trendYbar ys) ^ 2).sum

/-- Embeds `_calculate_trend` (ai_analyzer.py 345-362): fewer than 2 points
returns the insufficient-data marker; otherwise the Pearson correlation of
the index sequence against the values, `corr = Sxy / sqrt(Sxx*Syy)`, is
compared against the thresholds `0.3` and `-0.3`.  The float comparison
`corr > 0.3` is expressed in its exact square-root-free form
`0 < Sxy ∧ 9*Sxx*Syy < 100*Sxy^2` (the equivalence with the real-valued
correlation is proved in `pearson_gt_iff` below), and symmetrically for
`corr < -0.3`.  When a variance is zero, pandas yields `corr = NaN`, both
float comparisons are false, and the `Stabile` branch is taken; in that
case `Sxy = 0` and both exact conditions are false as well, so the
embedding takes the same branch. -/
def calculate_trend (ys : List ℚ) : String :=
  if ys.length < 2 then "Dati insufficienti"
  else if 0 < trendSxy ys ∧
      9 * (trendSxx ys * trendSyy ys) < 100 * trendSxy ys ^ 2 then
    "Crescente"
  else if trendSxy ys < 0 ∧
      9 * (trendSxx ys * trendSyy ys) < 100 * trendSxy ys ^ 2 then
    "Decrescente"
  else
    "Stabile"

/-- Pearson correlation of the index sequence against the values, over the
reals, exactly as the claim words it. -/
noncomputable def pearson_corr (ys : List ℚ) : ℝ :=
  (trendSxy ys : ℝ) / Real.sqrt ((trendSxx ys : ℝ) * (trendSyy ys : ℝ))

/-- Threshold comparison of a quotient by a positive number, in
square-root-free form. -/
theorem div_threshold_iff (a s : ℝ) (hs : 0 < s) :
    3 / 10 < a / s ↔ (0 < a ∧ 9 * s ^ 2 < 100 * a ^ 2) := by
  constructor
  · intro h
    have ha : 0 < a := by
      rcases lt_or_le 0 a with h1 | h1
      · exact h1
      · exfalso
        have hle : a / s ≤ 0 := div_nonpos_iff.mpr (Or.inr ⟨h1, hs.le⟩)
        have : (0:ℝ) < a / s := lt_trans (by norm_num) h
        linarith
    have h10 : 3 * s < a * 10 :=
      (div_lt_div_iff₀ (by norm_num) hs).mp h
    refine ⟨ha, ?_⟩
    nlinarith [mul_pos (by linarith : (0:ℝ) < a * 10 - 3 * s)
      (by linarith : (0:ℝ) < a * 10 + 3 * s)]
  · rintro ⟨ha, h2⟩
    have h10 : 3 * s < a * 10 := by
      by_contra h'
      push_neg at h'
      have hsq : (a * 10) * (a * 10) ≤ (3 * s) * (3 * s) :=
        mul_le_mul h' h' (by positivity) (by positivity)
      nlinarith [hsq, h2]
    exact (div_lt_div_iff₀ (by norm_num) hs).mpr h10

theorem trendSxx_nonneg (ys : List ℚ) : 0 ≤ trendSxx ys := by
  unfold trendSxx
  apply List.sum_nonneg
  intro x hx
  obtain ⟨a, _, rfl⟩ := List.mem_map.mp hx
  positivity

theorem trendSyy_nonneg (ys : List ℚ) : 0 ≤ trendSyy ys := by
  unfold trendSyy
  apply List.sum_nonneg
  intro x hx
  obtain ⟨a, _, rfl⟩ := List.mem_map.mp hx
  positivity

/-- The exact growing condition of `calculate_trend` is equivalent to
`corr > 0.3` over the reals, whenever the variance product is non-zero. -/
theorem pearson_gt_iff (ys : List ℚ) (h : trendSxx ys * trendSyy ys ≠ 0) :
    ((3 / 10 : ℝ) < pearson_corr ys ↔
      (0 < trendSxy ys ∧
        9 * (trendSxx ys * trendSyy ys) < 100 * trendSxy ys ^ 2)) := by
  have hS : 0 < trendSxx ys * trendSyy ys :=
    lt_of_le_of_ne
      (mul_nonneg (trendSxx_nonneg ys) (trendSyy_nonneg ys)) (Ne.symm h)
  have hSR : (0:ℝ) < (trendSxx ys : ℝ) * (trendSyy ys : ℝ) := by
    exact_mod_cast hS
  have hs : 0 < Real.sqrt ((trendSxx ys : ℝ) * (trendSyy ys : ℝ)) :=
    Real.sqrt_pos.mpr hSR
  have hsq : Real.sqrt ((trendSxx ys : ℝ) * (trendSyy ys : ℝ)) ^ 2
      = (trendSxx ys : ℝ) * (trendSyy ys : ℝ) :=
    Real.sq_sqrt hSR.le
  unfold pearson_corr
  rw [div_threshold_iff _ _ hs, hsq]
  constructor
  · rintro ⟨h1, h2⟩
    exact ⟨by exact_mod_cast h1, by exact_mod_cast h2⟩
  · rintro ⟨h1, h2⟩
    exact ⟨by exact_mod_cast h1, by exact_mod_cast h2⟩

/-- The exact declining condition of `calculate_trend` is equivalent to
`corr < -0.3` over the reals, whenever the variance product is non-zero. -/
theorem pearson_lt_iff (ys : List ℚ) (h : trendSxx ys * trendSyy ys ≠ 0) :
    (pearson_corr ys < -(3 / 10 : ℝ) ↔
      (trendSxy ys < 0 ∧
        9 * (trendSxx ys * trendSyy ys) < 100 * trendSxy ys ^ 2)) := by
  have hS : 0 < trendSxx ys * trendSyy ys :=
    lt_of_le_of_ne
      (mul_nonneg (trendSxx_nonneg ys) (trendSyy_nonneg ys)) (Ne.symm h)
  have hSR : (0:ℝ) < (trendSxx ys : ℝ) * (trendSyy ys : ℝ) := by
    exact_mod_cast hS
  have hs : 0 < Real.sqrt ((trendSxx ys : ℝ) * (trendSyy ys : ℝ)) :=
    Real.sqrt_pos.mpr hSR
  have hsq : Real.sqrt ((trendSxx ys : ℝ) * (trendSyy ys : ℝ)) ^ 2
      = (trendSxx ys : ℝ) * (trendSyy ys : ℝ) :=
    Real.sq_sqrt hSR.le
  have hneg : pearson_corr ys < -(3 / 10 : ℝ) ↔
      3 / 10 < -(trendSxy ys : ℝ) /
        Real.sqrt ((trendSxx ys : ℝ) * (trendSyy ys : ℝ)) := by
    unfold pearson_corr
    rw [neg_div]
    exact ⟨fun hlt => lt_neg.mp hlt, fun hlt => lt_neg.mpr hlt⟩
  rw [hneg, div_threshold_iff _ _ hs, hsq]
  constructor
  · rintro ⟨h1, h2⟩
    have h1' : (trendSxy ys : ℝ) < 0 := neg_pos.mp h1
    refine ⟨by exact_mod_cast h1', ?_⟩
    rw [neg_pow] at h2
    have h2' : 9 * ((trendSxx ys : ℝ) * (trendSyy ys : ℝ))
        < 100 * (trendSxy ys : ℝ) ^ 2 := by
      calc 9 * ((trendSxx ys : ℝ) * (trendSyy ys : ℝ))
          < 100 * ((-1) ^ 2 * (trendSxy ys : ℝ) ^ 2) := h2
        _ = 100 * (trendSxy ys : ℝ) ^ 2 := by ring
    exact_mod_cast h2'
  · rintro ⟨h1, h2⟩
    have h1' : (trendSxy ys : ℝ) < 0 := by exact_mod_cast h1
    refine ⟨neg_pos.mpr h1', ?_⟩
    have h2' : 9 * ((trendSxx ys : ℝ) * (trendSyy ys : ℝ))
        < 100 * (trendSxy ys : ℝ) ^ 2 := by exact_mod_cast h2
    calc 9 * ((trendSxx ys : ℝ) * (trendSyy ys : ℝ))
        < 100 * (trendSxy ys : ℝ) ^ 2 := h2'
      _ = 100 * (-(trendSxy ys : ℝ)) ^ 2 := by ring

/-- C6: the trend function returns the insufficient-data marker below 2
points; with at least 2 points and non-degenerate variances it classifies
by the Pearson correlation of the index sequence against the values with
thresholds 0.3 and -0.3; the three series of the claim classify as
growing, declining and stable. -/
theorem c6_trend_classification :
    (∀ ys : List ℚ, ys.length < 2 →
        calculate_trend ys = "Dati insufficienti") ∧
    (∀ ys : List ℚ, 2 ≤ ys.length → trendSxx ys * trendSyy ys ≠ 0 →
      calculate_trend ys =
        if (3 / 10 : ℝ) < pearson_corr ys then "Crescente"
        else if pearson_corr ys < -(3 / 10 : ℝ) then "Decrescente"
        else "Stabile") ∧
    calculate_trend [10, 12, 14, 16, 18] = "Crescente" ∧
    calculate_trend [18, 16, 14, 12, 10] = "Decrescente" ∧
    calculate_trend [10, 11, 10, 11, 10] = "Stabile" := by
  refine ⟨?_, ?_, ?_, ?_, ?_⟩
  · intro ys h
    unfold calculate_trend
    rw [if_pos h]
  · intro ys h2 hS
    unfold calculate_trend
    rw [if_neg (by omega)]
    by_cases hg : 0 < trendSxy ys ∧
        9 * (trendSxx ys * trendSyy ys) < 100 * trendSxy ys ^ 2
    · rw [if_pos hg, if_pos ((pearson_gt_iff ys hS).mpr hg)]
    · rw [if_neg hg, if_neg (fun hc => hg ((pearson_gt_iff ys hS).mp hc))]
      by_cases hd : trendSxy ys < 0 ∧
          9 * (trendSxx ys * trendSyy ys) < 100 * trendSxy ys ^ 2
      · rw [if_pos hd, if_pos ((pearson_lt_iff ys hS).mpr hd)]
      · rw [if_neg hd, if_neg (fun hc => hd ((pearson_lt_iff ys hS).mp hc))]
  · norm_num [calculate_trend, trendSxy, trendSxx, trendSyy, trendXbar,
      trendYbar, trendXs, List.range_succ, List.zip_cons_cons]
  · norm_num [calculate_trend, trendSxy, trendSxx, trendSyy, trendXbar,
      trendYbar, trendXs, List.range_succ, List.zip_cons_cons]
  · norm_num [calculate_trend, trendSxy, trendSxx, trendSyy, trendXbar,
      trendYbar, trendXs, List.range_succ, List.zip_cons_cons]

/-- C6 witness: the insufficiency clause evaluated on a one-point series,
with one of the concrete classifications. -/
theorem c6_trend_classification_witness :
    calculate_trend [(7 : ℚ)] = "Dati insufficienti" ∧
      calculate_trend [10, 12, 14, 16, 18] = "Crescente" :=
  ⟨c6_trend_classification.1 [7] (by decide),
    c6_trend_classification.2.2.1⟩

/-- C10: a series of at least two equal values (zero variance, Pearson
correlation undefined) is classified stable, with no failure: the centered
cross-product sum vanishes, so both threshold conditions are false, exactly
as the NaN comparisons of the float code are. -/
theorem c10_constant_series_stable (ys : List ℚ) (c : ℚ)
    (h2 : 2 ≤ ys.length) (hc : ∀ y ∈ ys, y = c) :
    calculate_trend ys = "Stabile" := by
  have hn : (ys.length : ℚ) ≠ 0 := Nat.cast_ne_zero.mpr (by omega)
  have hybar : trendYbar ys = c := by
    unfold trendYbar
    rw [List.sum_eq_card_nsmul ys c hc, nsmul_eq_mul]
    exact mul_div_cancel_left₀ c hn
  have hsxy : trendSxy ys = 0 := by
    unfold trendSxy
    apply List.sum_eq_zero
    intro x hx
    obtain ⟨p, hp, rfl⟩ := List.mem_map.mp hx
    have hmem : p.2 ∈ ys := (List.of_mem_zip hp).2
    rw [hybar, hc p.2 hmem, sub_self, mul_zero]
  unfold calculate_trend
  rw [if_neg (by omega)]
  rw [if_neg (by rw [hsxy]; simp)]
  rw [if_neg (by rw [hsxy]; simp)]

/-- C10 witness: the statement evaluated on the constant series `[5, 5]`. -/
theorem c10_constant_series_stable_witness :
    calculate_trend [(5 : ℚ), 5] = "Stabile" :=
  c10_constant_series_stable [5, 5] 5 (by decide) (by simp)

/-- Metric: the four keys of the period-statistics dictionary of
`_calculate_period_stats` (ai_analyzer.py 364-371). -/
inductive Metric where
  | clicks
  | impressions
  | ctr
  | position
deriving DecidableEq, Repr

/-- Embeds `_calculate_period_stats` (ai_analyzer.py 364-371): sum for
clicks and impressions, arithmetic mean for ctr and position. -/
def periodStat (D : List Record) : Metric → ℚ
  | Metric.clicks => (sumClicks D : ℚ)
  | Metric.impressions => ((D.map Record.impressions).sum : ℚ)
  | Metric.ctr => (D.map Record.ctr).sum / (D.length : ℚ)
  | Metric.position => (D.map Record.position).sum / (D.length : ℚ)

/-- Embeds the variation loop of `compare_periods` (ai_analyzer.py
174-178): a metric key enters the `changes` dictionary only when the
previous-period value is non-zero, with value
`(current - previous) / previous * 100`; otherwise the key is omitted
(`none`). -/
def periodChanges (cur prev : List Record) (m : Metric) : Option ℚ :=
  if periodStat prev m ≠ 0 then
    some ((periodStat cur m - periodStat prev m) / periodStat prev m * 100)
  else
    none

/-- Embeds `compare_periods` (ai_analyzer.py 164-210): the guard on line
166 returns the unavailable-marker (here `none`) when either period is
empty or the client is unconfigured; otherwise the per-metric changes are
computed and flow into the prompt. -/
def compare_periods (clientConfigured : Bool) (cur prev : List Record) :
    Option (Metric → Option ℚ) :=
  if cur.isEmpty || prev.isEmpty || !clientConfigured then none
  else some (periodChanges cur prev)

/-- C7: on non-empty periods `compare_periods` reaches the change
computation and, for every metric, emits
`(current - previous) / previous * 100` exactly when the previous-period
value is non-zero and omits the key when it is zero; the function is total,
so no call raises. -/
theorem c7_compare_periods_changes (cur prev : List Record) (m : Metric)
    (hc : cur ≠ []) (hp : prev ≠ []) :
    compare_periods true cur prev = some (periodChanges cur prev) ∧
      (periodStat prev m = 0 → periodChanges cur prev m = none) ∧
      (periodStat prev m ≠ 0 →
        periodChanges cur prev m =
          some ((periodStat cur m - periodStat prev m) /
            periodStat prev m * 100)) := by
  refine ⟨?_, ?_, ?_⟩
  · cases cur with
    | nil => exact absurd rfl hc
    | cons a t =>
      cases prev with
      | nil => exact absurd rfl hp
      | cons b s => rfl
  · intro h
    simp [periodChanges, h]
  · intro h
    unfold periodChanges
    rw [if_pos h]

/-- Current period for the C7 witness. -/
def c7Current : List Record :=
  [{ clicks := 6, impressions := 10, ctr := 1/2, position := 5 }]

/-- Previous period for the C7 witness: zero impressions and zero ctr, so
those two keys must be omitted, while clicks moved from 4 to 6. -/
def c7Previous : List Record :=
  [{ clicks := 4, impressions := 0, ctr := 0, position := 10 }]

/-- C7 witness: on the concrete periods the impressions key is omitted
(previous value 0) and the clicks key carries `(6-4)/4*100 = 50`. -/
theorem c7_compare_periods_changes_witness :
    periodChanges c7Current c7Previous Metric.impressions = none ∧
      periodChanges c7Current c7Previous Metric.clicks = some 50 := by
  constructor
  · exact (c7_compare_periods_changes c7Current c7Previous Metric.impressions
      (by decide) (by decide)).2.1
      (by norm_num [periodStat, c7Previous])
  · have h := (c7_compare_periods_changes c7Current c7Previous Metric.clicks
      (by decide) (by decide)).2.2
      (by norm_num [periodStat, c7Previous, sumClicks])
    rw [h]
    norm_num [periodStat, c7Current, c7Previous, sumClicks]

/-- Embeds the percentage computation of `analyze_branded_traffic`
(ai_analyzer.py 236-237): `total_clicks` is the sum of the branded and
non-branded clicks and the percentage is
`branded_clicks / total_clicks * 100` when `total_clicks > 0`, else `0`. -/
def branded_percentage (brand_keywords : List String)
    (D : List Record) : ℚ :=
  let total := brandedClicks brand_keywords D + nonBrandedClicks brand_keywords D
  if 0 < total then (brandedClicks brand_keywords D : ℚ) / (total : ℚ) * 100
  else 0

/-- C8: the branded-traffic percentage equals
`branded_clicks / total_clicks * 100` whenever the total is positive, is
`0` when the total is zero (guarded division, no failure), and always lies
between 0 and 100. -/
theorem c8_branded_percentage_guarded (brand_keywords : List String)
    (D : List Record) :
    (brandedClicks brand_keywords D + nonBrandedClicks brand_keywords D = 0 →
        branded_percentage brand_keywords D = 0) ∧
      (0 < brandedClicks brand_keywords D + nonBrandedClicks brand_keywords D →
        branded_percentage brand_keywords D =
          (brandedClicks brand_keywords D : ℚ) /
            ((brandedClicks brand_keywords D +
              nonBrandedClicks brand_keywords D : Nat) : ℚ) * 100) ∧
      0 ≤ branded_percentage brand_keywords D ∧
      branded_percentage brand_keywords D ≤ 100 := by
  set b := brandedClicks brand_keywords D with hb
  set n := nonBrandedClicks brand_keywords D with hn
  by_cases h : 0 < b + n
  · have hform : branded_percentage brand_keywords D =
        (b : ℚ) / ((b + n : Nat) : ℚ) * 100 := by
      unfold branded_percentage
      rw [← hb, ← hn, if_pos h]
    refine ⟨fun h0 => absurd h0 (by omega), fun _ => hform, ?_, ?_⟩
    · rw [hform]
      have htot : (0:ℚ) < ((b + n : Nat) : ℚ) := by exact_mod_cast h
      positivity
    · rw [hform]
      have htot : (0:ℚ) < ((b + n : Nat) : ℚ) := by exact_mod_cast h
      have hle : ((b : ℚ)) ≤ ((b + n : Nat) : ℚ) := by
        exact_mod_cast Nat.le_add_right b n
      have hdiv : (b : ℚ) / ((b + n : Nat) : ℚ) ≤ 1 :=
        (div_le_one htot).mpr hle
      nlinarith [hdiv]
  · have h0 : b + n = 0 := by omega
    have hzero : branded_percentage brand_keywords D = 0 := by
      unfold branded_percentage
      rw [← hb, ← hn, if_neg h]
    exact ⟨fun _ => hzero, fun hlt => absurd hlt h, by rw [hzero],
      by rw [hzero]; norm_num⟩

/-- Dataset of the branded-split scenario of the claim sources: the nike
query carries 5 clicks, the generic query 3. -/
def c8Dataset : List Record :=
  [{ query := some "buy nike shoes", clicks := 5 },
   { query := some "running shoes", clicks := 3 }]

/-- C8 witness: on the concrete dataset the percentage evaluates to
`5/8*100 = 62.5` and respects the 0..100 bounds. -/
theorem c8_branded_percentage_guarded_witness :
    branded_percentage ["nike"] c8Dataset = 125 / 2 ∧
      branded_percentage ["nike"] c8Dataset ≤ 100 := by
  have h := c8_branded_percentage_guarded ["nike"] c8Dataset
  constructor
  · rw [h.2.1 (by decide)]
    rw [show brandedClicks ["nike"] c8Dataset = 5 from by decide,
      show nonBrandedClicks ["nike"] c8Dataset = 3 from by decide]
    norm_num
  · exact h.2.2.2

end GSC
